import Mathlib

/-
Verification of the tasknc in-memory task list engine (src/tasknc.c).

The C program keeps tasks in a doubly linked list of `struct _task` nodes and
sorts it in place by swapping node *contents* (never relinking).  Because node
identity only matters through the position a node occupies, the embedding
represents the list as a Lean `List` of records and content swaps as element
swaps.  Machine integers (`unsigned short index`, `unsigned int due`, counters)
stay far below their bounds in every operation modelled here, so they are
embedded as `Nat`/`Int` without wraparound.  Calls into libc (POSIX regex,
`strptime`) are embedded as explicit oracle parameters, since their behaviour
is external to the repository.
-/

namespace Tasknc

/-- One task record: `struct _task` in tasknc.c.  The `prev`/`next` pointers of
the C struct are represented by the record's position in a Lean list.  `NULL`
strings become `none`; `priority` is a C `char` whose zero value means
"no priority", and `due = 0` encodes "no due date" exactly as in the source. -/
structure TaskR where
  index : Nat
  uuid : Option String
  tags : Option String
  start : Nat
  end_ : Nat
  entry : Nat
  due : Nat
  project : Option String
  priority : Char
  description : Option String
  is_filtered : Bool
  deriving Repr, DecidableEq

/-- The `char` value 0, used by the source as the "no priority" marker. -/
def noPriority : Char := Char.ofNat 0

/-- `malloc_task`: a freshly allocated task with all fields zeroed and
`is_filtered = 1`. -/
def malloc_task : TaskR :=
  { index := 0, uuid := none, tags := none, start := 0, end_ := 0, entry := 0,
    due := 0, project := none, priority := noPriority, description := none,
    is_filtered := true }

instance : Inhabited TaskR := ⟨malloc_task⟩

/-- C `strcmp` on the character lists of two strings: the first differing
character position decides, a proper prefix is smaller.  The result is
normalised to -1/0/1, which is all the source ever inspects. -/
def strcmpL : List Char → List Char → Int
  | [], [] => 0
  | [], _ :: _ => -1
  | _ :: _, [] => 1
  | a :: as, b :: bs =>
      if a.toNat < b.toNat then -1
      else if b.toNat < a.toNat then 1
      else strcmpL as bs

/-- `strcmp` lifted to `String`. -/
def strcmp (a b : String) : Int := strcmpL a.data b.data

/-- `compare_tasks`, case `n`: `ret = 1` iff `a->index < b->index`. -/
def compare_n (a b : TaskR) : Bool := a.index < b.index

/-- `compare_tasks`, case `p` (also the `default` case): a `NULL` project on
`a` returns 1 when `b` has one; with both projects present `strcmp` decides,
and equal projects recurse into mode `n`. -/
def compare_p (a b : TaskR) : Bool :=
  match a.project, b.project with
  | none, none => false
  | none, some _ => true
  | some _, none => false
  | some s, some t =>
      if strcmp s t < 0 then true
      else if strcmp s t = 0 then compare_n a b
      else false

/-- `compare_tasks`, case `r`: zero priorities recurse into mode `p`
(`a` zero and `b` non-zero gives 0, the converse gives 1), equal priorities
recurse into mode `p`, and otherwise the `switch` on `b->priority` fires only
for `M` and `L`. -/
def compare_r (a b : TaskR) : Bool :=
  if a.priority = noPriority then
    (if b.priority = noPriority then compare_p a b else false)
  else if b.priority = noPriority then true
  else if a.priority = b.priority then compare_p a b
  else if b.priority = 'M' then a.priority == 'H'
  else if b.priority = 'L' then a.priority == 'M' || a.priority == 'H'
  else false

/-- `compare_tasks`, case `d`: zero due dates recurse into mode `r` when both
are zero (`a` zero, `b` non-zero gives 0; the converse gives 1); among
non-zero dues, `ret = 1` iff `a->due < b->due`. -/
def compare_d (a b : TaskR) : Bool :=
  if a.due = 0 then (if b.due = 0 then compare_r a b else false)
  else if b.due = 0 then true
  else a.due < b.due

/-- `compare_tasks(a, b, sort_mode)`: dispatch on the mode character; every
mode other than `n`, `d`, `r` falls into the `default`/`p` case exactly as the
C `switch` does. -/
def compare_tasks (a b : TaskR) (sort_mode : Char) : Bool :=
  if sort_mode = 'n' then compare_n a b
  else if sort_mode = 'd' then compare_d a b
  else if sort_mode = 'r' then compare_r a b
  else compare_p a b

/-- The scan loop of `sort_tasks`: `m` is the current content of the `first`
node and the list holds the contents of the nodes from `first->next` to
`last`.  Whenever `compare_tasks(start, cur) == 1` the contents of `start` and
`cur` are exchanged.  Returns the final content of the `first` node and the
final contents of the scanned positions, in order. -/
def scan (mode : Char) (m : TaskR) : List TaskR → TaskR × List TaskR
  | [] => (m, [])
  | c :: rest =>
      if compare_tasks m c mode then
        let p := scan mode c rest
        (p.1, m :: p.2)
      else
        let p := scan mode m rest
        (p.1, c :: p.2)

/-- `sort_tasks(first, last)` on the contents of the node range, with a fuel
argument bounding the recursion depth (the scan loop keeps the range length
constant, so fuel `length` is never exhausted; see `sort_go_perm`).  After the
scan the function swaps the contents of `first` and `last` unconditionally.
Its "sort right side" branch is dead: there `cur = last->next`, so the guard
`cur->prev != last` is always false; only the left range `first .. last->prev`
is sorted recursively, which the recursive call on the list without its last
element reproduces. -/
def sort_go (mode : Char) : Nat → List TaskR → List TaskR
  | 0, l => l
  | _ + 1, [] => []
  | _ + 1, [a] => [a]
  | fuel + 1, a :: b :: rest =>
      let p := scan mode a (b :: rest)
      match p.2.getLast? with
      | none => [p.1]
      | some z => sort_go mode fuel (z :: p.2.dropLast) ++ [p.1]

/-- `sort_wrapper`/`sort_tasks` on a whole list. -/
def sort_tasks (mode : Char) (l : List TaskR) : List TaskR :=
  sort_go mode l.length l

/-! ## Filter engine -/

/-- The filter-mode constants of tasknc.c (`char mode` of `struct _filter`). -/
def FILTER_BY_STRING : Int := 0

/-- `FILTER_CLEAR`. -/
def FILTER_CLEAR : Int := 1

/-- `FILTER_DESCRIPTION`. -/
def FILTER_DESCRIPTION : Int := 2

/-- `FILTER_TAGS`. -/
def FILTER_TAGS : Int := 3

/-- `FILTER_PROJECT`. -/
def FILTER_PROJECT : Int := 4

/-- `struct _filter` without its chain pointer (the chain itself is not needed
by the claims below).  `string` is the filter pattern. -/
structure Filter where
  mode : Int
  string : String
  deriving Repr, DecidableEq

/-- The POSIX regex engine behind `regcomp`/`regexec`, external to the
repository: `compiles pat` is whether `regcomp` accepts `pat` under
`REG_ICASE|REG_EXTENDED|REG_NOSUB|REG_NEWLINE`, and `found pat hay` whether
`regexec` reports a match of the compiled `pat` in `hay`. -/
structure RegexEngine where
  compiles : String → Bool
  found : String → String → Bool

/-- `match_string(haystack, needle)`: 0 for a `NULL` haystack, 0 when the
pattern does not compile, otherwise the `regexec` verdict. -/
def match_string (re : RegexEngine) (haystack : Option String) (needle : String) : Bool :=
  match haystack with
  | none => false
  | some h => if re.compiles needle then re.found needle h else false

/-- `task_match(cur, str)`: project, description or tags matches. -/
def task_match (re : RegexEngine) (cur : TaskR) (str : String) : Bool :=
  match_string re cur.project str || match_string re cur.description str ||
    match_string re cur.tags str

/-- The `switch (filter_mode)` of `filter_tasks`, computing the new
`is_filtered` value of one record (the `default` label makes every mode other
than the four named ones behave like `FILTER_BY_STRING`). -/
def filter_pred (re : RegexEngine) (f : Filter) (cur : TaskR) : Bool :=
  if f.mode = FILTER_DESCRIPTION then match_string re cur.description f.string
  else if f.mode = FILTER_TAGS then match_string re cur.tags f.string
  else if f.mode = FILTER_PROJECT then match_string re cur.project f.string
  else if f.mode = FILTER_CLEAR then true
  else task_match re cur f.string

/-- One record's treatment in the `filter_tasks` pass: with `filter_persist`
on and a non-clear mode, the loop skips records already marked not-visible, so
their flag is left untouched; every other record has its flag recomputed. -/
def filter_one (persist : Bool) (re : RegexEngine) (f : Filter) (cur : TaskR) : TaskR :=
  if persist = true ∧ f.mode ≠ FILTER_CLEAR ∧ cur.is_filtered = false then cur
  else { cur with is_filtered := filter_pred re f cur }

/-- Number of records whose `is_filtered` flag is set. -/
def countVisible (l : List TaskR) : Nat := (l.filter (·.is_filtered)).length

/-- The task list together with the two global counters `taskcount`
(visible records) and `totaltaskcount` maintained by `filter_tasks`. -/
structure Engine where
  tasks : List TaskR
  taskcount : Nat
  totaltaskcount : Nat
  deriving Repr, DecidableEq

/-- `filter_tasks(this_filter)`: one forward pass recomputing every record's
visibility (subject to the persistence skip) and both counters.  `taskcount`
accumulates `cur->is_filtered` over the pass and `totaltaskcount` counts every
node, which the closed-form counts below reproduce. -/
def filter_tasks (persist : Bool) (re : RegexEngine) (f : Filter) (e : Engine) : Engine :=
  let ts := e.tasks.map (filter_one persist re f)
  { tasks := ts, taskcount := countVisible ts, totaltaskcount := ts.length }

/-- The clear filter built by `key_filter` when a filter yields no results
(`tmp_filter.mode = FILTER_CLEAR`; its pattern is never read). -/
def clearFilter : Filter := { mode := FILTER_CLEAR, string := "" }

/-- The tail of `key_filter(...)` after the chosen filter has been applied:
if `taskcount == 0` a clear filter is applied at once and the reset is
reported, otherwise the applied filter stands.  Returns the new engine state
and the statusbar message. -/
def key_filter (persist : Bool) (re : RegexEngine) (f : Filter) (e : Engine) :
    Engine × String :=
  let e1 := filter_tasks persist re f e
  if e1.taskcount = 0 then
    (filter_tasks persist re clearFilter e1, "filter yielded no results; reset")
  else
    (e1, "filter applied")

/-! ## Search engine -/

/-- The sequence of nodes visited by the `while (1)` loop of
`find_next_search_result` when started at position `p`: first the nodes after
`p` in link order, then — when `cur->next == NULL` — the head (flagged as the
wrap step, which has its own bookkeeping), then the nodes from the head up to
and including `p`, where the loop closes. -/
def visitSeq (l : List TaskR) (p : Nat) : List (TaskR × Bool) :=
  match l with
  | [] => []
  | h :: t =>
      ((h :: t).drop (p + 1)).map (fun r => (r, false)) ++
        (h, true) :: (t.take p).map (fun r => (r, false))

/-- The loop body of `find_next_search_result`, fed with the visit sequence.
At the wrap step `selline` becomes 0 when the head is visible and -1
otherwise, and the head is match-tested; at an ordinary step a visible record
first increments `selline` and is then match-tested, while a hidden record is
skipped entirely (`continue`).  Returns the final `selline` and whether the
function returned through the match branch (`false` means the loop ran to the
starting record and fell through to the "no matches" statusbar message). -/
def walk_go (re : RegexEngine) (ss : String) : Int → List (TaskR × Bool) → Int × Bool
  | selline, [] => (selline, false)
  | selline, (r, isWrap) :: rest =>
      if isWrap then
        let s2 : Int := if r.is_filtered then 0 else -1
        if task_match re r ss then (s2, true) else walk_go re ss s2 rest
      else if r.is_filtered then
        if task_match re r ss then (selline + 1, true)
        else walk_go re ss (selline + 1) rest
      else walk_go re ss selline rest

/-- `find_next_search_result(head, pos)` with `pos` the record at position `p`
and `selline` the current selected line.  The result's second component is
`true` when a match was found (selection moved there, no message) and `false`
when the loop closed on `pos` without a match ("no matches" reported). -/
def find_next_search_result (re : RegexEngine) (ss : String) (l : List TaskR)
    (p : Nat) (selline : Int) : Int × Bool :=
  walk_go re ss selline (visitSeq l p)

/-- The `selline` value under which `sel_task` stops at position `p`: the
0-based index of `p` in the subsequence of visible records (counted as in
`sel_task`, i.e. one less than the number of visible records among positions
`0..p`). -/
def visibleIndex (l : List TaskR) (p : Nat) : Int :=
  (countVisible (l.take (p + 1)) : Int) - 1

/-- `sel_task()`: starting from `i = -1`, add each record's `is_filtered` flag
and stop at the record where `i == selline`; returns that record's position. -/
def sel_task_go : List TaskR → Int → Int → Nat → Option Nat
  | [], _, _, _ => none
  | c :: rest, i, selline, posn =>
      let i2 := i + (if c.is_filtered then 1 else 0)
      if i2 = selline then some posn else sel_task_go rest i2 selline (posn + 1)

/-- `sel_task()` from the head. -/
def sel_task (l : List TaskR) (selline : Int) : Option Nat :=
  sel_task_go l (-1) selline 0

/-! ## View state machine -/

/-- The two mutable view-state globals `selline` and `pageoffset` (C `short`;
all arithmetic here stays far inside the 16-bit range, so `Int` is used). -/
structure ViewState where
  selline : Int
  pageoffset : Int
  deriving Repr, DecidableEq

/-- `check_curs_pos()`: clamp `selline` into `[0, taskcount-1]`, then snap
`pageoffset` so that `pageoffset ≤ selline ≤ pageoffset + onscreentasks`,
where `onscreentasks = size[1] - 3`. -/
def check_curs_pos (taskcount size1 : Int) (s : ViewState) : ViewState :=
  let onscreentasks := size1 - 3
  let sel1 :=
    if s.selline < 0 then 0
    else if s.selline ≥ taskcount then taskcount - 1
    else s.selline
  let po :=
    if sel1 < s.pageoffset then sel1
    else if sel1 > s.pageoffset + onscreentasks then sel1 - onscreentasks
    else s.pageoffset
  { selline := sel1, pageoffset := po }

/-- `key_scroll(direction)`: -1/+1 scroll by one (guarded), -2/2 jump to the
first/last entry, anything else leaves the selection alone; always followed by
`check_curs_pos()`. -/
def key_scroll (taskcount size1 : Int) (direction : Int) (s : ViewState) : ViewState :=
  let sel :=
    if direction = -1 then (if s.selline > 0 then s.selline - 1 else s.selline)
    else if direction = 1 then
      (if s.selline < taskcount - 1 then s.selline + 1 else s.selline)
    else if direction = -2 then 0
    else if direction = 2 then taskcount - 1
    else s.selline
  check_curs_pos taskcount size1 { selline := sel, pageoffset := s.pageoffset }

/-! ## Export parser

`parse_task` walks the logical line with `strtok(line, ",")`; `get_tasks`
feeds it each logical line of the external tool's export (the model takes the
lines after the physical-line reassembly and `remove_char(line, '\\')`, both
upstream I/O handling).  `strptime`/`strftime`, which turn a `due` value into
epoch seconds, are libc and appear as the oracle `dateval`. -/

/-- The opening-brace character stripped from the first token. -/
def braceChar : Char := Char.ofNat 123

/-- The double-quote character. -/
def quoteChar : Char := Char.ofNat 34

/-- Drop one leading occurrence of `c` (the `if (token[0] == ...) token++;`
steps of `parse_task`). -/
def stripLead (c : Char) : List Char → List Char
  | [] => []
  | x :: xs => if x = c then xs else x :: xs

/-- `strtok`-style splitting: maximal runs of non-delimiter characters, with
empty tokens between consecutive delimiters skipped, as `strtok(_, ",")`
behaves. -/
def strtok_go (delim : Char) : List Char → List Char → List (List Char)
  | [], acc => if acc = [] then [] else [acc.reverse]
  | c :: rest, acc =>
      if c = delim then
        if acc = [] then strtok_go delim rest []
        else acc.reverse :: strtok_go delim rest []
      else strtok_go delim rest (c :: acc)

/-- All `strtok(line, ",")` tokens of a line. -/
def strtokSplit (delim : Char) (s : List Char) : List (List Char) :=
  strtok_go delim s []

/-- The value-terminator search of `parse_task`: look for `endchar` in the
current content; while it is absent, append a comma and the next token
(`strcat`) and retry.  Returns the content cut at the terminator together with
the unconsumed tokens.  When the tokens run out first the C code passes the
`NULL` from `strtok` to `strcat` and crashes; that state is modelled as
`none`. -/
def joinUntil (endchar : Char) : List Char → List (List Char) →
    Option (List Char × List (List Char))
  | content, toks =>
      if content.contains endchar then
        some (content.takeWhile (· ≠ endchar), toks)
      else
        match toks with
        | [] => none
        | t :: ts => joinUntil endchar (content ++ ',' :: t) ts

/-- The field dispatch of `parse_task`: copy `uuid`/`project`/`description`/
`tags`, take the first character for `priority` (the C index `content[0]` of
an empty content reads the terminator, i.e. the zero character), convert `due`
through the date oracle, and ignore every other field. -/
def dispatch (dateval : String → Nat) (field content : List Char) (t : TaskR) : TaskR :=
  if field = "uuid".data then { t with uuid := some (String.mk content) }
  else if field = "project".data then { t with project := some (String.mk content) }
  else if field = "description".data then { t with description := some (String.mk content) }
  else if field = "priority".data then { t with priority := content.headD noPriority }
  else if field = "due".data then { t with due := dateval (String.mk content) }
  else if field = "tags".data then { t with tags := some (String.mk content) }
  else t

/-- The token loop of `parse_task`.  Per token: count it, strip a leading
brace and a leading quote, split at the first colon (`break` out of the loop
when there is none); the field name loses its final character
(`*(divider-1) = '\0'`), the content starts two characters past the colon.
An `id` field advances to the next token without further processing.  The
value terminator is `]` for `tags`/`annotations` and the double quote
otherwise.  Returns the token count and the accumulated record. -/
def parse_fields (dateval : String → Nat) : Nat → List (List Char) → Nat → TaskR → Nat × TaskR
  | _, [], n, t => (n, t)
  | 0, _ :: _, n, t => (n, t)
  | fuel + 1, tok :: rest, n, t =>
      let n2 := n + 1
      let tok2 := stripLead quoteChar (stripLead braceChar tok)
      if tok2.contains ':' then
        let fieldRaw := tok2.takeWhile (· ≠ ':')
        let field := fieldRaw.dropLast
        if field = "id".data then parse_fields dateval fuel rest n2 t
        else
          let endchar := if field = "tags".data ∨ field = "annotations".data then ']'
            else quoteChar
          let content0 := (tok2.dropWhile (· ≠ ':')).drop 2
          match joinUntil endchar content0 rest with
          | none => (n2, t)
          | some (content, rest2) =>
              parse_fields dateval fuel rest2 n2 (dispatch dateval field content t)
      else (n2, t)

/-- `parse_task(line)`: tokenize, run the field loop on a `malloc_task`,
return `NULL` when fewer than 2 tokens were counted.  The fuel argument of
`parse_fields` bounds the loop by the token count; since every iteration
consumes at least one token, fuel `length` is never exhausted. -/
def parse_task (dateval : String → Nat) (line : String) : Option TaskR :=
  let toks := strtokSplit ',' line.data
  let p := parse_fields dateval toks.length toks 0 malloc_task
  if p.1 < 2 then none else some p.2

/-- The record-building loop of `get_tasks`: each line is parsed; a `NULL`
parse aborts the whole build, as does a parsed record without `uuid` or
without `description`; otherwise the record is appended with
`this->index = counter`. -/
def build_tasks (dateval : String → Nat) : List String → Nat → Option (List TaskR)
  | [], _ => some []
  | line :: rest, counter =>
      match parse_task dateval line with
      | none => none
      | some t =>
          if t.uuid = none ∨ t.description = none then none
          else
            match build_tasks dateval rest (counter + 1) with
            | none => none
            | some l => some ({ t with index := counter } :: l)

/-- `get_tasks()`: build the linked list from the export lines, then
`sort_wrapper(head)` (a no-op on the empty list). -/
def get_tasks (dateval : String → Nat) (sortmode : Char) (lines : List String) :
    Option (List TaskR) :=
  (build_tasks dateval lines 0).map (sort_tasks sortmode)

/-! ## Concrete values used by counterexamples and witnesses -/

/-- Trivial date oracle (no claim depends on due-date decoding). -/
def dateval0 : String → Nat := fun _ => 0

/-- An export line with `uuid`, `description` and `project` fields. -/
def lineA : String := "\x7b\"uuid\":\"a\",\"description\":\"x\",\"project\":\"zz\"\x7d"

/-- An export line with only `uuid` and `description`. -/
def lineB : String := "\x7b\"uuid\":\"b\",\"description\":\"y\"\x7d"

/-- A regex engine on which every pattern compiles and matches everywhere. -/
def reAll : RegexEngine := { compiles := fun _ => true, found := fun _ _ => true }

/-- A regex engine on which no pattern compiles (so nothing ever matches). -/
def reNone : RegexEngine := { compiles := fun _ => false, found := fun _ _ => false }

/-- A task with a project, at index 0. -/
def tProjA : TaskR := { malloc_task with index := 0, project := some "alpha" }

/-- A task without a project, at index 1. -/
def tNoProj : TaskR := { malloc_task with index := 1 }

/-- A visible task with a description. -/
def tMatch : TaskR := { malloc_task with description := some "x" }

/-- Two distinct tasks sharing the non-zero due date 5. -/
def tDue5a : TaskR := { malloc_task with index := 0, due := 5 }

/-- See `tDue5a`. -/
def tDue5b : TaskR := { malloc_task with index := 1, due := 5 }

/-- A description filter. -/
def fDesc : Filter := { mode := FILTER_DESCRIPTION, string := "x" }

/-- A one-task engine state. -/
def eOne : Engine := { tasks := [tMatch], taskcount := 1, totaltaskcount := 1 }

/-- The list built by `build_tasks dateval0 [lineA, lineB] 0`. -/
def buildAB : List TaskR :=
  [{ index := 0, uuid := some "a", tags := none, start := 0, end_ := 0, entry := 0,
     due := 0, project := some "zz", priority := noPriority, description := some "x",
     is_filtered := true },
   { index := 1, uuid := some "b", tags := none, start := 0, end_ := 0, entry := 0,
     due := 0, project := none, priority := noPriority, description := some "y",
     is_filtered := true }]

/-! ## Helper lemmas -/

/-- `strcmp` is antisymmetric: swapping the arguments negates the result. -/
theorem strcmpL_swap (x y : List Char) : strcmpL y x = -strcmpL x y := by
  induction x generalizing y with
  | nil => cases y <;> simp [strcmpL]
  | cons a as ih =>
      cases y with
      | nil => simp [strcmpL]
      | cons b bs =>
          simp only [strcmpL]
          rcases Nat.lt_trichotomy a.toNat b.toNat with h | h | h
          · simp [h, Nat.lt_asymm h]
          · have h1 : ¬ a.toNat < b.toNat := by omega
            have h2 : ¬ b.toNat < a.toNat := by omega
            simp only [if_neg h1, if_neg h2]
            exact ih bs
          · simp [h, Nat.lt_asymm h]

/-- `strcmp` returns 0 exactly on equal strings. -/
theorem strcmpL_eq_zero_iff (x y : List Char) : strcmpL x y = 0 ↔ x = y := by
  induction x generalizing y with
  | nil => cases y <;> simp [strcmpL]
  | cons a as ih =>
      cases y with
      | nil => simp [strcmpL]
      | cons b bs =>
          simp only [strcmpL]
          rcases Nat.lt_trichotomy a.toNat b.toNat with h | h | h
          · have hne : a ≠ b := by intro e; subst e; omega
            simp [h, hne]
          · have hab : a = b := Char.ext (UInt32.ext h)
            subst hab
            have h1 : ¬ a.toNat < a.toNat := by omega
            simp [h1, ih]
          · have hne : a ≠ b := by intro e; subst e; omega
            simp [h, Nat.lt_asymm h, hne]

/-- `strcmp` on `String`s returns 0 exactly on equal strings. -/
theorem strcmp_eq_zero_iff (s t : String) : strcmp s t = 0 ↔ s = t := by
  unfold strcmp
  rw [strcmpL_eq_zero_iff]
  constructor
  · intro h; cases s; cases t; exact congrArg String.mk h
  · intro h; rw [h]

/-- Exactly when `compare_tasks` returns 1 in mode `p`. -/
theorem compare_p_eq_true_iff (a b : TaskR) :
    compare_p a b = true ↔
      (a.project = none ∧ b.project ≠ none) ∨
      (∃ s t, a.project = some s ∧ b.project = some t ∧
        (strcmp s t < 0 ∨ (s = t ∧ a.index < b.index))) := by
  cases ha : a.project with
  | none =>
      cases hb : b.project <;> simp [compare_p, ha, hb]
  | some s =>
      cases hb : b.project with
      | none => simp [compare_p, ha, hb]
      | some t =>
          simp only [compare_p, ha, hb]
          by_cases h1 : strcmp s t < 0
          · simp [h1]
          · by_cases h2 : strcmp s t = 0
            · have hst : s = t := (strcmp_eq_zero_iff s t).mp h2
              subst hst
              simp [h1, h2, compare_n]
            · have hst : s ≠ t := fun e => h2 (by rw [e, strcmp_eq_zero_iff])
              simp [h1, h2, hst]

/-- Mode `n` never returns 1 in both directions. -/
theorem compare_n_asymm (a b : TaskR) :
    ¬(compare_n a b = true ∧ compare_n b a = true) := by
  simp only [compare_n, decide_eq_true_eq]
  omega

/-- Mode `p` never returns 1 in both directions. -/
theorem compare_p_asymm (a b : TaskR) :
    ¬(compare_p a b = true ∧ compare_p b a = true) := by
  rintro ⟨h1, h2⟩
  cases ha : a.project with
  | none => cases hb : b.project <;> simp [compare_p, ha, hb] at h1 h2
  | some s =>
      cases hb : b.project with
      | none => simp [compare_p, ha, hb] at h1
      | some t =>
          simp only [compare_p, ha, hb] at h1 h2
          have hsw := strcmpL_swap s.data t.data
          by_cases hlt : strcmp s t < 0
          · have hgt : ¬ strcmp t s < 0 := by unfold strcmp at *; omega
            have hne : ¬ strcmp t s = 0 := by unfold strcmp at *; omega
            rw [if_neg hgt, if_neg hne] at h2
            exact Bool.false_ne_true h2
          · by_cases heq : strcmp s t = 0
            · have heq2 : strcmp t s = 0 := by unfold strcmp at *; omega
              have hlt2 : ¬ strcmp t s < 0 := by omega
              rw [if_neg hlt, if_pos heq] at h1
              rw [if_neg hlt2, if_pos heq2] at h2
              exact compare_n_asymm a b ⟨h1, h2⟩
            · rw [if_neg hlt, if_neg heq] at h1
              exact Bool.false_ne_true h1

/-- Mode `r` never returns 1 in both directions. -/
theorem compare_r_asymm (a b : TaskR) :
    ¬(compare_r a b = true ∧ compare_r b a = true) := by
  rintro ⟨h1, h2⟩
  by_cases hpa : a.priority = noPriority <;> by_cases hpb : b.priority = noPriority
  · rw [compare_r, if_pos hpa, if_pos hpb] at h1
    rw [compare_r, if_pos hpb, if_pos hpa] at h2
    exact compare_p_asymm a b ⟨h1, h2⟩
  · rw [compare_r, if_pos hpa, if_neg hpb] at h1
    exact Bool.false_ne_true h1
  · rw [compare_r, if_pos hpb, if_neg hpa] at h2
    exact Bool.false_ne_true h2
  · by_cases heq : a.priority = b.priority
    · rw [compare_r, if_neg hpa, if_neg hpb, if_pos heq] at h1
      rw [compare_r, if_neg hpb, if_neg hpa, if_pos (heq.symm)] at h2
      exact compare_p_asymm a b ⟨h1, h2⟩
    · rw [compare_r, if_neg hpa, if_neg hpb, if_neg heq] at h1
      rw [compare_r, if_neg hpb, if_neg hpa, if_neg (fun e => heq e.symm)] at h2
      by_cases hbM : b.priority = 'M'
      · rw [if_pos hbM] at h1
        have haH : a.priority = 'H' := by simpa using h1
        rw [if_neg (by rw [haH]; decide), if_neg (by rw [haH]; decide)] at h2
        exact Bool.false_ne_true h2
      · by_cases hbL : b.priority = 'L'
        · rw [if_neg hbM, if_pos hbL] at h1
          have haMH : a.priority = 'M' ∨ a.priority = 'H' := by
            simpa using h1
          rcases haMH with haM | haH
          · rw [if_pos haM] at h2
            have : b.priority = 'H' := by simpa using h2
            rw [this] at hbL; exact absurd hbL (by decide)
          · rw [if_neg (by rw [haH]; decide), if_neg (by rw [haH]; decide)] at h2
            exact Bool.false_ne_true h2
        · rw [if_neg hbM, if_neg hbL] at h1
          exact Bool.false_ne_true h1

/-- Mode `d` never returns 1 in both directions. -/
theorem compare_d_asymm (a b : TaskR) :
    ¬(compare_d a b = true ∧ compare_d b a = true) := by
  rintro ⟨h1, h2⟩
  by_cases hda : a.due = 0 <;> by_cases hdb : b.due = 0
  · rw [compare_d, if_pos hda, if_pos hdb] at h1
    rw [compare_d, if_pos hdb, if_pos hda] at h2
    exact compare_r_asymm a b ⟨h1, h2⟩
  · rw [compare_d, if_pos hda, if_neg hdb] at h1
    exact Bool.false_ne_true h1
  · rw [compare_d, if_pos hdb, if_neg hda] at h2
    exact Bool.false_ne_true h2
  · rw [compare_d, if_neg hda, if_neg hdb] at h1
    rw [compare_d, if_neg hdb, if_neg hda] at h2
    simp only [decide_eq_true_eq] at h1 h2
    omega

/-- The scan pass of `sort_tasks` preserves the number of scanned nodes. -/
theorem scan_length (mode : Char) (m : TaskR) (l : List TaskR) :
    (scan mode m l).2.length = l.length := by
  induction l generalizing m with
  | nil => simp [scan]
  | cons c rest ih =>
      by_cases h : compare_tasks m c mode <;> simp [scan, h, ih]

/-- The scan pass of `sort_tasks` permutes the node contents. -/
theorem scan_perm (mode : Char) (m : TaskR) (l : List TaskR) :
    ((scan mode m l).1 :: (scan mode m l).2).Perm (m :: l) := by
  induction l generalizing m with
  | nil => simp [scan]
  | cons c rest ih =>
      by_cases h : compare_tasks m c mode
      · simp only [scan, if_pos h]
        exact (List.Perm.swap m (scan mode c rest).1 (scan mode c rest).2).trans
          ((ih c).cons m)
      · simp only [scan, if_neg h]
        exact ((List.Perm.swap c (scan mode m rest).1 (scan mode m rest).2).trans
          ((ih m).cons c)).trans (List.Perm.swap m c rest)

/-- A list with a known last element is its `dropLast` followed by it. -/
theorem eq_dropLast_append {α : Type} (l : List α) (z : α)
    (h : l.getLast? = some z) : l = l.dropLast ++ [z] := by
  have hne : l ≠ [] := by intro e; subst e; simp at h
  have hz : l.getLast hne = z := by
    rw [List.getLast?_eq_getLast l hne] at h
    exact Option.some_injective _ h
  rw [← hz]
  exact (List.dropLast_append_getLast hne).symm

/-- Each pass of the list sort permutes the node contents. -/
theorem sort_go_perm (mode : Char) (fuel : Nat) (l : List TaskR) :
    (sort_go mode fuel l).Perm l := by
  induction fuel generalizing l with
  | zero => simp [sort_go]
  | succ f ih =>
      match l with
      | [] => simp [sort_go]
      | [a] => simp [sort_go]
      | a :: b :: rest =>
          simp only [sort_go]
          cases hz : (scan mode a (b :: rest)).2.getLast? with
          | none =>
              exfalso
              have hlen := scan_length mode a (b :: rest)
              rw [List.getLast?_eq_none_iff.mp hz] at hlen
              simp at hlen
          | some z =>
              have hdec := eq_dropLast_append _ z hz
              have hperm1 : (sort_go mode f (z :: (scan mode a (b :: rest)).2.dropLast)
                  ++ [(scan mode a (b :: rest)).1]).Perm
                  ((z :: (scan mode a (b :: rest)).2.dropLast)
                    ++ [(scan mode a (b :: rest)).1]) :=
                (ih _).append_right _
              refine hperm1.trans ?_
              refine (List.perm_append_singleton _ _).trans ?_
              have hperm2 : (z :: (scan mode a (b :: rest)).2.dropLast).Perm
                  ((scan mode a (b :: rest)).2) := by
                conv_rhs => rw [hdec]
                exact (List.perm_append_singleton _ _).symm
              exact ((hperm2.cons _).trans (scan_perm mode a (b :: rest)))

/-- `sort_tasks` permutes the node contents (they are swapped in place, never
created or dropped; in particular the multiset of `index` fields is
preserved). -/
theorem sort_tasks_perm (mode : Char) (l : List TaskR) :
    (sort_tasks mode l).Perm l := sort_go_perm mode l.length l

/-- On a two-node range the sort's scan swap and its final first/last swap
compose so that the first node keeps content `x` exactly when
`compare_tasks x y` returned 1. -/
theorem sort_pair (mode : Char) (x y : TaskR) :
    sort_tasks mode [x, y] = if compare_tasks x y mode then [x, y] else [y, x] := by
  by_cases h : compare_tasks x y mode <;>
    simp [sort_tasks, sort_go, scan, h]

/-! ## Claims -/

/-- C1, counterexample: `tProjA` has a project and index 0, `tNoProj` has no
project and index 1, yet sorting in mode `p` places the record with NO project
first, from either starting order.  The claim says records with no project
sort after records with a project; the code does the opposite (its `p` case
returns 1 for a `NULL`-project `a`, which the sort routine realises as
"`a` ends up first", matching how the same return value orders mode `n`
ascending and is the opposite of how `d` and `r` treat absent values). -/
theorem C1_counterexample :
    sort_tasks 'p' [tProjA, tNoProj] = [tNoProj, tProjA] ∧
    sort_tasks 'p' [tNoProj, tProjA] = [tNoProj, tProjA] := by
  exact ⟨by decide, by decide⟩

/-- C1 (amended): in mode `p`, a two-node range is sorted with `a` kept first
exactly when `compare_tasks a b` returns 1, and that holds iff `a` has no
project while `b` has one, or both have projects and `a`'s is lexicographically
smaller, or the projects are equal and `a`'s index is smaller.  Hence records
with no project sort BEFORE records with a project; among records with
projects the order is lexicographic ascending with equal projects falling back
to mode `n` (index ascending). -/
theorem C1_project_order_characterisation (a b : TaskR) :
    sort_tasks 'p' [a, b] = (if compare_p a b then [a, b] else [b, a]) ∧
    (compare_p a b = true ↔
      (a.project = none ∧ b.project ≠ none) ∨
      (∃ s t, a.project = some s ∧ b.project = some t ∧
        (strcmp s t < 0 ∨ (s = t ∧ a.index < b.index)))) := by
  refine ⟨?_, compare_p_eq_true_iff a b⟩
  rw [sort_pair]
  rfl

/-- C3, counterexample: rebuilding from two export lines assigns ids 0 and 1
in list order, but `get_tasks` ends by sorting, and `swap_tasks` exchanges the
`index` field together with the rest of the payload; under sort mode `p` the
no-project record moves to the head still carrying id 1, so the id sequence
read head-to-tail is 1, 0 — not 0, 1 as the claim requires. -/
theorem C3_counterexample :
    (get_tasks dateval0 'p' [lineA, lineB]).map (List.map TaskR.index) =
      some [1, 0] := by
  decide

/-- Records produced by the build loop of `get_tasks` carry `index = counter`:
position `i` of the result holds id `c + i` when the loop starts at `c`. -/
theorem build_tasks_index (dateval : String → Nat) (lines : List String) (c : Nat)
    (l : List TaskR) (hb : build_tasks dateval lines c = some l) :
    ∀ i, i < l.length → (l.getD i default).index = c + i := by
  induction lines generalizing c l with
  | nil =>
      simp only [build_tasks, Option.some_inj] at hb
      subst hb
      intro i hi
      simp at hi
  | cons x rest ih =>
      simp only [build_tasks] at hb
      split at hb
      · exact absurd hb (by simp)
      · rename_i t heq
        split at hb
        · exact absurd hb (by simp)
        · split at hb
          · exact absurd hb (by simp)
          · rename_i l2 hr
            rw [Option.some_inj] at hb
            subst hb
            intro i hi
            match i with
            | 0 => simp
            | j + 1 =>
                have h2 := ih (c + 1) l2 hr j (by simpa using hi)
                simp only [List.getD_cons_succ]
                omega

/-- C3 (amended): immediately after the rebuild loop has linked the parsed
records, each record's id equals its 0-based position; a sort then swaps whole
payloads (ids included) between fixed positions, so it permutes the records —
after sorting the ids are a permutation of 0..n-1, not necessarily the
position sequence. -/
theorem C3_ids_after_rebuild_and_sort (dateval : String → Nat)
    (lines : List String) (l : List TaskR)
    (hb : build_tasks dateval lines 0 = some l) :
    (∀ i, i < l.length → (l.getD i default).index = i) ∧
    ∀ mode, (sort_tasks mode l).Perm l := by
  refine ⟨fun i hi => ?_, fun mode => sort_tasks_perm mode l⟩
  simpa using build_tasks_index dateval lines 0 l hb i hi

/-- C3, witness: the amended statement applied to the concrete two-line
export. -/
theorem C3_ids_witness :
    (buildAB.getD 0 default).index = 0 ∧ (sort_tasks 'p' buildAB).Perm buildAB := by
  have h := C3_ids_after_rebuild_and_sort dateval0 [lineA, lineB] buildAB (by decide)
  exact ⟨h.1 0 (by decide), h.2 'p'⟩

/-- C4, counterexample: two distinct records with the same non-zero due date
are an unresolved tie in mode `d`: the comparator returns 0 in both
directions, with no fallback (the `d` case only recurses when both dues are
zero). -/
theorem C4_counterexample :
    tDue5a ≠ tDue5b ∧ compare_tasks tDue5a tDue5b 'd' = false ∧
      compare_tasks tDue5b tDue5a 'd' = false := by
  decide

/-- C4 (amended): mode `n` resolves every pair with distinct indexes, but the
fallback chain is not total: two records both lacking a project are tied in
mode `p` (that case does not recurse into `n`), and two records with equal
non-zero due dates are tied in mode `d`. -/
theorem C4_fallback_not_total :
    (∀ a b : TaskR, a.index ≠ b.index →
        compare_tasks a b 'n' = true ∨ compare_tasks b a 'n' = true) ∧
    (∀ a b : TaskR, a.project = none → b.project = none →
        compare_tasks a b 'p' = false ∧ compare_tasks b a 'p' = false) ∧
    (∀ a b : TaskR, a.due ≠ 0 → a.due = b.due →
        compare_tasks a b 'd' = false ∧ compare_tasks b a 'd' = false) := by
  refine ⟨fun a b h => ?_, fun a b ha hb => ?_, fun a b ha hab => ?_⟩
  · show compare_n a b = true ∨ compare_n b a = true
    simp only [compare_n, decide_eq_true_eq]
    omega
  · constructor
    · show compare_p a b = false
      simp [compare_p, ha, hb]
    · show compare_p b a = false
      simp [compare_p, ha, hb]
  · have hb : b.due ≠ 0 := by omega
    constructor
    · show compare_d a b = false
      rw [compare_d, if_neg ha, if_neg hb]
      simp; omega
    · show compare_d b a = false
      rw [compare_d, if_neg hb, if_neg ha]
      simp; omega

/-- C4, witness: the amended statement applied to concrete records. -/
theorem C4_fallback_witness :
    tProjA.index ≠ tNoProj.index ∧
    (compare_tasks tProjA tNoProj 'n' = true ∨
      compare_tasks tNoProj tProjA 'n' = true) :=
  ⟨by decide, C4_fallback_not_total.1 tProjA tNoProj (by decide)⟩

/-- C9: in each of the four sort modes the comparator never returns 1 in both
directions for the same pair, so it never contradicts itself. -/
theorem C9_comparator_asymmetric (m : Char)
    (hm : m = 'n' ∨ m = 'p' ∨ m = 'd' ∨ m = 'r') (a b : TaskR) :
    ¬(compare_tasks a b m = true ∧ compare_tasks b a m = true) := by
  rcases hm with rfl | rfl | rfl | rfl
  · exact compare_n_asymm a b
  · exact compare_p_asymm a b
  · exact compare_d_asymm a b
  · exact compare_r_asymm a b

/-- C9, witness: asymmetry at mode `n` on concrete records. -/
theorem C9_comparator_witness :
    ¬(compare_tasks tProjA tNoProj 'n' = true ∧
      compare_tasks tNoProj tProjA 'n' = true) :=
  C9_comparator_asymmetric 'n' (Or.inl rfl) tProjA tNoProj

/-- With persistence on and a non-clear filter, one record's pass never turns
a hidden record visible. -/
theorem filter_one_mono (re : RegexEngine) (f : Filter) (hf : f.mode ≠ FILTER_CLEAR)
    (r : TaskR) (h : (filter_one true re f r).is_filtered = true) :
    r.is_filtered = true := by
  by_cases hr : r.is_filtered = true
  · exact hr
  · rw [filter_one, if_pos ⟨rfl, hf, by simpa using hr⟩] at h
    exact absurd h hr

/-- C5: with `filter_persist` on, applying any non-clear filter yields a
visible set that is a subset of the previous one — position by position, a
record visible after the new pass was already visible before it (hidden
records are skipped by the pass and stay hidden; only previously visible
records are re-evaluated). -/
theorem C5_persistent_filter_monotone (re : RegexEngine) (f : Filter)
    (hf : f.mode ≠ FILTER_CLEAR) (e : Engine) (i : Nat)
    (hvis : ((filter_tasks true re f e).tasks.getD i default).is_filtered = true) :
    (e.tasks.getD i default).is_filtered = true := by
  rw [filter_tasks] at hvis
  simp only [List.getD_eq_getElem?_getD, List.getElem?_map] at hvis ⊢
  cases hg : e.tasks[i]? with
  | none => decide
  | some r =>
      rw [hg] at hvis
      simp only [Option.map_some, Option.getD_some] at hvis ⊢
      exact filter_one_mono re f hf r hvis

/-- C5, witness: the monotonicity applied to a concrete engine. -/
theorem C5_persistent_filter_witness :
    fDesc.mode ≠ FILTER_CLEAR ∧ (eOne.tasks.getD 0 default).is_filtered = true :=
  ⟨by decide, C5_persistent_filter_monotone reAll fDesc (by decide) eOne 0 (by decide)⟩

/-- Applying the clear filter makes every record visible and the counters
equal. -/
theorem clear_filter_resets (persist : Bool) (re : RegexEngine) (e : Engine) :
    (∀ t ∈ (filter_tasks persist re clearFilter e).tasks, t.is_filtered = true) ∧
    (filter_tasks persist re clearFilter e).taskcount =
      (filter_tasks persist re clearFilter e).totaltaskcount := by
  have hone : ∀ r : TaskR, (filter_one persist re clearFilter r).is_filtered = true := by
    intro r
    rw [filter_one, if_neg (fun hc => hc.2.1 rfl)]
    simp [filter_pred, clearFilter, FILTER_DESCRIPTION, FILTER_TAGS,
      FILTER_PROJECT, FILTER_CLEAR]
  constructor
  · intro t ht
    rw [filter_tasks] at ht
    simp only [List.mem_map] at ht
    obtain ⟨r, _, rfl⟩ := ht
    exact hone r
  · rw [filter_tasks]
    simp only [countVisible]
    rw [List.filter_eq_self.mpr]
    intro a ha
    simp only [List.mem_map] at ha
    obtain ⟨r, _, rfl⟩ := ha
    exact hone r

/-- C6: whenever the freshly applied filter leaves zero visible records,
`key_filter` immediately applies a clear filter and reports
"filter yielded no results; reset"; afterwards every record is visible and
the visible count equals the total count. -/
theorem C6_empty_filter_resets (persist : Bool) (re : RegexEngine) (f : Filter)
    (e : Engine) (h : (filter_tasks persist re f e).taskcount = 0) :
    (∀ t ∈ (key_filter persist re f e).1.tasks, t.is_filtered = true) ∧
    (key_filter persist re f e).1.taskcount =
      (key_filter persist re f e).1.totaltaskcount ∧
    (key_filter persist re f e).2 = "filter yielded no results; reset" := by
  have hres := clear_filter_resets persist re (filter_tasks persist re f e)
  rw [key_filter]
  simp only [if_pos h]
  exact ⟨hres.1, hres.2, trivial⟩

/-- C6, witness: a filter that hides the only record triggers the reset. -/
theorem C6_empty_filter_witness :
    (filter_tasks true reNone fDesc eOne).taskcount = 0 ∧
    (key_filter true reNone fDesc eOne).2 = "filter yielded no results; reset" :=
  ⟨by decide, (C6_empty_filter_resets true reNone fDesc eOne (by decide)).2.2⟩

/-- `match_string` rejects everything when the pattern does not compile, and
always rejects a `NULL` haystack. -/
theorem match_string_fails (re : RegexEngine) (pat : String)
    (hbad : re.compiles pat = false) (hay : Option String) :
    match_string re hay pat = false := by
  cases hay <;> simp [match_string, hbad]

/-- C10: `match_string` returns 0 on a `NULL` haystack and on a pattern that
fails to compile; consequently a filter whose pattern is an invalid regex
hides every record, the visible count drops to zero, and `key_filter`'s
empty-result guard resets the filter rather than raising an error. -/
theorem C10_invalid_regex_hides_all (re : RegexEngine) (pat : String)
    (hbad : re.compiles pat = false) (persist : Bool) (f : Filter)
    (hfs : f.string = pat) (hfm : f.mode ≠ FILTER_CLEAR) (e : Engine) :
    (∀ anyPat : String, match_string re none anyPat = false) ∧
    (∀ hay : String, match_string re (some hay) pat = false) ∧
    (∀ t ∈ (filter_tasks persist re f e).tasks, t.is_filtered = false) ∧
    (filter_tasks persist re f e).taskcount = 0 ∧
    (key_filter persist re f e).2 = "filter yielded no results; reset" := by
  have hm : ∀ hay : Option String, match_string re hay f.string = false := by
    intro hay
    rw [hfs]
    exact match_string_fails re pat hbad hay
  have hpred : ∀ r : TaskR, filter_pred re f r = false := by
    intro r
    rw [filter_pred]
    by_cases h1 : f.mode = FILTER_DESCRIPTION
    · rw [if_pos h1]; exact hm r.description
    · rw [if_neg h1]
      by_cases h2 : f.mode = FILTER_TAGS
      · rw [if_pos h2]; exact hm r.tags
      · rw [if_neg h2]
        by_cases h3 : f.mode = FILTER_PROJECT
        · rw [if_pos h3]; exact hm r.project
        · rw [if_neg h3, if_neg hfm]
          simp [task_match, hm]
  have hone : ∀ r : TaskR, (filter_one persist re f r).is_filtered = false := by
    intro r
    rw [filter_one]
    split_ifs with h1
    · exact h1.2.2
    · simp [hpred r]
  have hall : ∀ t ∈ (filter_tasks persist re f e).tasks, t.is_filtered = false := by
    intro t ht
    rw [filter_tasks] at ht
    simp only [List.mem_map] at ht
    obtain ⟨r, _, rfl⟩ := ht
    exact hone r
  have hcount : (filter_tasks persist re f e).taskcount = 0 := by
    rw [filter_tasks]
    simp only [countVisible, List.length_eq_zero]
    rw [List.filter_eq_nil_iff]
    intro a ha
    simp only [List.mem_map] at ha
    obtain ⟨r, _, rfl⟩ := ha
    simp [hone r]
  refine ⟨fun anyPat => rfl, fun hay => ?_, hall, hcount, ?_⟩
  · exact match_string_fails re pat hbad (some hay)
  · rw [key_filter]
    simp only [if_pos hcount]

/-- C10, witness: the invalid-pattern behaviour at a concrete engine. -/
theorem C10_invalid_regex_witness :
    reNone.compiles "x" = false ∧
    (filter_tasks true reNone fDesc eOne).taskcount = 0 ∧
    (key_filter true reNone fDesc eOne).2 = "filter yielded no results; reset" := by
  have h := C10_invalid_regex_hides_all reNone "x" (by decide) true fDesc rfl
    (by decide) eOne
  exact ⟨by decide, h.2.2.2.1, h.2.2.2.2⟩

/-- `countVisible` over a cons. -/
theorem countVisible_cons (r : TaskR) (l : List TaskR) :
    countVisible (r :: l) = (if r.is_filtered then 1 else 0) + countVisible l := by
  by_cases h : r.is_filtered <;>
    simp [countVisible, List.filter_cons, h, Nat.add_comm]

/-- If the search walk finds a match within a prefix of the visit sequence,
the walk over the longer sequence returns that same result. -/
theorem walk_go_append_found (re : RegexEngine) (ss : String)
    (ws1 ws2 : List (TaskR × Bool)) (s0 : Int)
    (h : (walk_go re ss s0 ws1).2 = true) :
    walk_go re ss s0 (ws1 ++ ws2) = walk_go re ss s0 ws1 := by
  induction ws1 generalizing s0 with
  | nil => simp [walk_go] at h
  | cons x rest ih =>
      obtain ⟨r, isW⟩ := x
      simp only [walk_go, List.cons_append] at h ⊢
      by_cases hw : isW = true
      · simp only [if_pos hw] at h ⊢
        by_cases hmt : task_match re r ss = true
        · simp [hmt]
        · simp only [if_neg hmt] at h ⊢
          exact ih _ h
      · simp only [if_neg hw] at h ⊢
        by_cases hv : r.is_filtered = true
        · simp only [if_pos hv] at h ⊢
          by_cases hmt : task_match re r ss = true
          · simp [hmt]
          · simp only [if_neg hmt] at h ⊢
            exact ih _ h
        · simp only [if_neg hv] at h ⊢
          exact ih _ h

/-- If the search walk finds nothing within a prefix of the visit sequence,
the walk over the longer sequence continues from the prefix's final
`selline`. -/
theorem walk_go_append_not_found (re : RegexEngine) (ss : String)
    (ws1 ws2 : List (TaskR × Bool)) (s0 : Int)
    (h : (walk_go re ss s0 ws1).2 = false) :
    walk_go re ss s0 (ws1 ++ ws2) = walk_go re ss (walk_go re ss s0 ws1).1 ws2 := by
  induction ws1 generalizing s0 with
  | nil => simp [walk_go]
  | cons x rest ih =>
      obtain ⟨r, isW⟩ := x
      simp only [walk_go, List.cons_append] at h ⊢
      by_cases hw : isW = true
      · simp only [if_pos hw] at h ⊢
        by_cases hmt : task_match re r ss = true
        · simp [hmt] at h
        · simp only [if_neg hmt] at h ⊢
          exact ih _ h
      · simp only [if_neg hw] at h ⊢
        by_cases hv : r.is_filtered = true
        · simp only [if_pos hv] at h ⊢
          by_cases hmt : task_match re r ss = true
          · simp [hmt] at h
          · simp only [if_neg hmt] at h ⊢
            exact ih _ h
        · simp only [if_neg hv] at h ⊢
          exact ih _ h

/-- An unsuccessful walk over ordinary (non-wrap) steps advances `selline` by
exactly the number of visible records passed. -/
theorem walk_go_plain (re : RegexEngine) (ss : String) (rs : List TaskR) (s0 : Int)
    (h : (walk_go re ss s0 (rs.map (fun r => (r, false)))).2 = false) :
    (walk_go re ss s0 (rs.map (fun r => (r, false)))).1 =
      s0 + (countVisible rs : Int) := by
  induction rs generalizing s0 with
  | nil => simp [walk_go, countVisible]
  | cons r rest ih =>
      simp only [List.map_cons, walk_go, if_neg (Bool.false_ne_true)] at h ⊢
      by_cases hv : r.is_filtered = true
      · simp only [if_pos hv] at h ⊢
        by_cases hmt : task_match re r ss = true
        · simp [hmt] at h
        · simp only [if_neg hmt] at h ⊢
          rw [ih _ h, countVisible_cons, if_pos hv]
          push_cast
          ring
      · simp only [if_neg hv] at h ⊢
        rw [ih _ h, countVisible_cons, if_neg hv]
        push_cast
        ring

/-- C7, counterexample: a single visible, matching record searched from
itself.  The walk wraps, returns to the starting record, re-tests it, accepts
it as the match and returns without any statusbar message — the claim's
assertion that the starting record is not accepted as a new match, and that
"no matches" is reported when no OTHER record matched, both fail here. -/
theorem C7_counterexample :
    find_next_search_result reAll "x" [tMatch] 0 0 = (0, true) := by
  decide

/-- C7 (amended): when the walk closes back on the starting record with no
record having matched — the starting record included, since it is re-tested
when the loop closes — the "no matches" message is reported (the `false`
result component) and `selline` ends at the starting record's visible index,
i.e. unchanged from its value before the search. -/
theorem C7_no_match_selline_unchanged (re : RegexEngine) (ss : String)
    (l : List TaskR) (p : Nat) (hp : p < l.length)
    (hvis : (l.getD p default).is_filtered = true) (s0 : Int)
    (hs : s0 = visibleIndex l p)
    (hnf : (find_next_search_result re ss l p s0).2 = false) :
    (find_next_search_result re ss l p s0).1 = s0 := by
  cases l with
  | nil => simp at hp
  | cons h t =>
      rw [find_next_search_result, visitSeq] at hnf ⊢
      have hA : ((walk_go re ss s0
          (((h :: t).drop (p + 1)).map (fun r => (r, false)))).2 = false) := by
        cases hA2 : (walk_go re ss s0
            (((h :: t).drop (p + 1)).map (fun r => (r, false)))).2
        · rfl
        · rw [walk_go_append_found re ss _ _ s0 hA2] at hnf
          exact absurd (hnf.symm.trans hA2) Bool.false_ne_true
      rw [walk_go_append_not_found re ss _ _ s0 hA] at hnf ⊢
      set s1 := (walk_go re ss s0
        (((h :: t).drop (p + 1)).map (fun r => (r, false)))).1
      simp only [walk_go, if_true, ite_true] at hnf ⊢
      by_cases hmt : task_match re h ss = true
      · rw [if_pos hmt] at hnf
        exact absurd hnf (by simp)
      · rw [if_neg hmt] at hnf ⊢
        rw [walk_go_plain re ss _ _ hnf]
        rw [hs, visibleIndex, List.take_succ_cons, countVisible_cons]
        by_cases hh : h.is_filtered = true
        · rw [if_pos hh, if_pos hh]
          push_cast
          omega
        · rw [if_neg hh, if_neg hh]
          push_cast
          omega

/-- C7, witness: a two-record list with a never-matching pattern; the walk
reports no matches and leaves `selline` at its original value 0. -/
theorem C7_no_match_witness :
    (find_next_search_result reNone "x" [tMatch, tMatch] 0 0).2 = false ∧
    (find_next_search_result reNone "x" [tMatch, tMatch] 0 0).1 = 0 :=
  ⟨by decide, C7_no_match_selline_unchanged reNone "x" [tMatch, tMatch] 0
    (by decide) (by decide) 0 (by decide) (by decide)⟩

/-- After `check_curs_pos` runs with at least one visible task and a legal
screen height, the selection is clamped into `[0, taskcount-1]` and the page
offset brackets it within `size[1] - 3` rows (hence also within the looser
`size[1] - 2`). -/
theorem check_curs_pos_inv (taskcount size1 : Int) (htc : 1 ≤ taskcount)
    (hsz : 3 ≤ size1) (s : ViewState) :
    0 ≤ (check_curs_pos taskcount size1 s).selline ∧
    (check_curs_pos taskcount size1 s).selline ≤ taskcount - 1 ∧
    (check_curs_pos taskcount size1 s).pageoffset ≤
      (check_curs_pos taskcount size1 s).selline ∧
    (check_curs_pos taskcount size1 s).selline ≤
      (check_curs_pos taskcount size1 s).pageoffset + (size1 - 3) := by
  rw [check_curs_pos]
  split_ifs <;> constructor <;> try constructor <;> try constructor
  all_goals simp only []
  all_goals omega

/-- C8: after any sequence of scroll-by-one and jump-to-first/last operations
(each of which, as in `key_scroll`, ends in `check_curs_pos`) followed by a
final `check_curs_pos`, with `taskcount ≥ 1` and screen height at least 3:
`0 ≤ selline ≤ taskcount - 1` and
`pageoffset ≤ selline ≤ pageoffset + (size[1] - 3)
            ≤ pageoffset + (size[1] - 2)` (the claim's viewport bound, the
screen height minus the title and status rows). -/
theorem C8_pagination_clamped (taskcount size1 : Int) (htc : 1 ≤ taskcount)
    (hsz : 3 ≤ size1) (ops : List Int) (s0 : ViewState) :
    let s := check_curs_pos taskcount size1
      (ops.foldl (fun st d => key_scroll taskcount size1 d st) s0)
    0 ≤ s.selline ∧ s.selline ≤ taskcount - 1 ∧
      s.pageoffset ≤ s.selline ∧ s.selline ≤ s.pageoffset + (size1 - 3) ∧
      s.selline ≤ s.pageoffset + (size1 - 2) := by
  have h := check_curs_pos_inv taskcount size1 htc hsz
    (ops.foldl (fun st d => key_scroll taskcount size1 d st) s0)
  exact ⟨h.1, h.2.1, h.2.2.1, h.2.2.2, by omega⟩

/-- C8, witness: a concrete scroll sequence on a two-task list with a 5-row
screen. -/
theorem C8_pagination_witness :
    0 ≤ (check_curs_pos 2 5 ([1, 1, -2, 2].foldl
        (fun st d => key_scroll 2 5 d st) { selline := 0, pageoffset := 0 })).selline :=
  (C8_pagination_clamped 2 5 (by decide) (by decide) [1, 1, -2, 2]
    { selline := 0, pageoffset := 0 }).1

/-- C2, counterexample: the line "garbage" yields a single token and no colon,
so `parse_task` fails (`tokencounter < 2`); a load whose export contains that
line followed by a perfectly good record returns `NULL` — the whole load is
aborted, not just the malformed record discarded (while `lineA` alone loads
fine).  The claim asserts a malformed under-2-fields record is dropped
per-record without failing the load; `get_tasks` instead returns `NULL` the
moment `parse_task` does. -/
theorem C2_counterexample :
    parse_task dateval0 "garbage" = none ∧
    get_tasks dateval0 'n' [lineA] = some (buildAB.take 1) ∧
    get_tasks dateval0 'n' ["garbage", lineA] = none := by
  refine ⟨by decide, by decide, by decide⟩

/-- C2 (amended): any line on which `parse_task` fails (fewer than 2 parsed
fields), and any line parsing to a record without `uuid` or without
`description`, aborts the whole list build: `get_tasks`' loop returns `NULL`
for the entire load in both cases alike. -/
theorem C2_malformed_aborts_load (dateval : String → Nat) (lines : List String)
    (c : Nat)
    (hbad : ∃ line ∈ lines, parse_task dateval line = none ∨
        ∃ t, parse_task dateval line = some t ∧
          (t.uuid = none ∨ t.description = none)) :
    build_tasks dateval lines c = none := by
  induction lines generalizing c with
  | nil => simp at hbad
  | cons x rest ih =>
      obtain ⟨line, hmem, hcase⟩ := hbad
      rcases List.mem_cons.mp hmem with rfl | hmem2
      · simp only [build_tasks]
        rcases hcase with hnone | ⟨t, hsome, hmiss⟩
        · rw [hnone]
        · rw [hsome]
          simp only [if_pos hmiss]
      · simp only [build_tasks]
        cases hx : parse_task dateval x with
        | none => rfl
        | some t =>
            by_cases hmiss : t.uuid = none ∨ t.description = none
            · simp only [if_pos hmiss]
            · simp only [if_neg hmiss]
              rw [ih (c + 1) ⟨line, hmem2, hcase⟩]

/-- C2, witness: the amended statement applied to the concrete bad line. -/
theorem C2_malformed_witness : build_tasks dateval0 ["garbage"] 0 = none :=
  C2_malformed_aborts_load dateval0 ["garbage"] 0
    ⟨"garbage", by simp, Or.inl (by decide)⟩

end Tasknc
